import Mathlib

/-!
Shallow embedding of the task-manager backend (Express + Mongoose):
credential store (User model, bcrypt pre-save hook), token service (jwt),
auth gate middleware, and the ownership-scoped task repository, together
with theorems checking the specification's claims against the code.

Strings of the JavaScript source are embedded as `List Char`.
-/

/-- JS strings are embedded as lists of characters. -/
abbrev Str := List Char

/-- Lowercasing, as applied by the mongoose `lowercase: true` setter on emails. -/
def lowerStr (s : Str) : Str := s.map Char.toLower

/-- Trimming of surrounding whitespace, as applied by `trim: true` on titles/usernames. -/
def trimStr (s : Str) : Str :=
  ((s.dropWhile Char.isWhitespace).reverse.dropWhile Char.isWhitespace).reverse

/-- `startsWithStr pat text` holds when `pat` is an initial segment of `text`. -/
def startsWithStr : Str → Str → Bool
  | [], _ => true
  | _ :: _, [] => false
  | p :: ps, t :: ts => p == t && startsWithStr ps ts

/-- `substrAt pat text` holds when `pat` occurs contiguously somewhere in `text`. -/
def substrAt (pat : Str) : Str → Bool
  | [] => pat.isEmpty
  | t :: ts => startsWithStr pat (t :: ts) || substrAt pat ts

/-- Case-insensitive substring containment.
Modelled from the spec: the Document Store collaborator's substring query —
`$regex: q, $options: 'i'` with a literal pattern — is described by the spec as
"a case-insensitive substring match". -/
def containsI (text pat : Str) : Bool :=
  substrAt (lowerStr pat) (lowerStr text)

/-- The fixed prefix of a bcrypt hash string (`$2b$` + cost `10$`). -/
def bcryptPrefixStr : Str := '$' :: '2' :: 'b' :: '$' :: '1' :: '0' :: '$' :: []

/-- Length of the salt component of a bcrypt hash (22 base64 characters). -/
def bcryptSaltLen : Nat := 22

/-- Modelled from the spec: the external `bcrypt.hash` primitive (not part of
this repository's sources). The spec calls it "a deliberately slow,
randomly-salted one-way function"; the model records the salt and the digest of
the plaintext inside the stored string, after the standard bcrypt prefix, so
that comparison can re-derive the salt. One-wayness itself is not modelled. -/
def bcryptHash (salt p : Str) : Str := bcryptPrefixStr ++ salt ++ p

/-- Modelled from the spec: the external `bcrypt.compare` primitive. It parses
the salt back out of the stored hash, re-hashes the candidate with it, and
compares against the stored value. -/
def bcryptCompare (candidate stored : Str) : Bool :=
  stored == bcryptHash ((stored.drop bcryptPrefixStr.length).take bcryptSaltLen) candidate

/-- A persisted User document (mongoose `User` model). -/
structure User where
  id : Str
  username : Str
  email : Str
  password : Str
  createdAt : Nat
deriving DecidableEq, Repr

/-- The `UserSchema.pre('save')` hook: if the password path is not modified the
document is saved unchanged; otherwise the password field is replaced by the
salted bcrypt hash of its current (plaintext) value. -/
def preSave (u : User) (passwordModified : Bool) (salt : Str) : User :=
  if passwordModified then { u with password := bcryptHash salt u.password } else u

/-- `UserSchema.methods.comparePassword`: bcrypt-compare a candidate against
the stored password field. -/
def comparePassword (u : User) (candidate : Str) : Bool :=
  bcryptCompare candidate u.password

/-- A JSON error response: HTTP status plus message body. -/
structure ErrRes where
  status : Nat
  message : Str
deriving DecidableEq, Repr

/-- The uniform 401 response of the login route (`Invalid credentials`). -/
def invalidCredentials : ErrRes :=
  ⟨401, 'I' :: 'n' :: 'v' :: 'a' :: 'l' :: 'i' :: 'd' :: ' ' ::
        'c' :: 'r' :: 'e' :: 'd' :: 'e' :: 'n' :: 't' :: 'i' :: 'a' :: 'l' :: 's' :: []⟩

/-- The 409 response of the register route (`User already exists`). -/
def userExistsConflict : ErrRes :=
  ⟨409, 'U' :: 's' :: 'e' :: 'r' :: ' ' :: 'a' :: 'l' :: 'r' :: 'e' :: 'a' :: 'd' :: 'y' ::
        ' ' :: 'e' :: 'x' :: 'i' :: 's' :: 't' :: 's' :: []⟩

/-- The public-safe projection returned by register / profile routes:
id, username, email, createdAt — never the password hash. -/
structure UserView where
  id : Str
  username : Str
  email : Str
  createdAt : Nat
deriving DecidableEq, Repr

def userView (u : User) : UserView :=
  ⟨u.id, u.username, u.email, u.createdAt⟩

/-- `POST /auth/register` (after the external Input Validator has accepted the
body): a single existence query `User.findOne({$or: [{email}, {username}]})`
decides Conflict; otherwise `User.create` persists the document, the schema
setters lowercase the email, and the pre-save hook hashes the password (a new
document's password path counts as modified). Mongoose casts the query filter
through the same setters, so the email condition is compared lowercased.
The store is the list of persisted users; `newId`, `salt` and `now` stand for
the generated ObjectId, the random salt and the clock. -/
def register (store : List User) (uname email password : Str)
    (newId salt : Str) (now : Nat) : Except ErrRes UserView × List User :=
  if store.any (fun u => u.email == lowerStr email || u.username == uname) then
    (.error userExistsConflict, store)
  else
    let raw : User := { id := newId, username := trimStr uname, email := lowerStr email,
                        password := password, createdAt := now }
    let u := preSave raw true salt
    (.ok (userView u), store ++ [u])

/-- A concrete 22-character salt for closed instances. -/
def salt22 : Str := List.replicate 22 'a'

/-- A stored user whose password field is empty (no hash verifies against it). -/
def badPwUser : User :=
  { id := 'u' :: [], username := 'c' :: [], email := 'c' :: '@' :: 'x' :: [],
    password := [], createdAt := 0 }

/-- The record persisted by the first registration in the closed instance. -/
def firstReg : User :=
  { id := 'u' :: [], username := 'a' :: [], email := 'a' :: '@' :: 'x' :: [],
    password := bcryptHash salt22 ('p' :: 'w' :: []), createdAt := 0 }



/-- Modelled from the spec: a decoded, signed token of the external
`jsonwebtoken` library — a self-contained assertion carrying the payload
`{id}` plus `iat`/`exp` claims, and a signature. The HMAC signature is
modelled by recording the signing secret: a signature checks out exactly when
the verifying secret equals the signing secret. Times are in seconds. -/
structure SignedToken where
  id : Str
  iat : Nat
  exp : Nat
  sig : Str
deriving DecidableEq, Repr

/-- Seconds in the fixed 24-hour validity window (`expiresIn: '24h'`). -/
def tokenValiditySecs : Nat := 24 * 60 * 60

/-- Modelled from the spec: `jwt.sign({id}, secret, {expiresIn: '24h'})` at
clock time `now` — `iat := now`, `exp := now + 24h`. -/
def jwtSign (id : Str) (secret : Str) (now : Nat) : SignedToken :=
  { id := id, iat := now, exp := now + tokenValiditySecs, sig := secret }

/-- Modelled from the spec: `jwt.verify(token, secret)` at clock time `now` —
fails when the signature does not match the secret or the token is expired
(`jsonwebtoken` rejects once `now ≥ exp`); on success returns the payload. -/
def jwtVerify (token : SignedToken) (secret : Str) (now : Nat) :
    Except Unit SignedToken :=
  if token.sig == secret && now < token.exp then .ok token else .error ()

/-- Outcome of the auth middleware: an immediate JSON response, or control
passed to the next handler with `req.user = {id}` attached. -/
inductive AuthOutcome where
  | respond (res : ErrRes)
  | proceed (userId : Str)
deriving DecidableEq, Repr

/-- The 401 body sent by the auth middleware. -/
def unauthorizedRes : ErrRes :=
  ⟨401, 'U' :: 'n' :: 'a' :: 'u' :: 't' :: 'h' :: 'o' :: 'r' :: 'i' :: 'z' :: 'e' :: 'd' :: []⟩

/-- The 500 body sent by the auth middleware when `JWT_SECRET` is unset. -/
def serverConfigErrorRes : ErrRes :=
  ⟨500, 'S' :: 'e' :: 'r' :: 'v' :: 'e' :: 'r' :: ' ' ::
        'c' :: 'o' :: 'n' :: 'f' :: 'i' :: 'g' :: ' ' :: 'e' :: 'r' :: 'r' :: 'o' :: 'r' :: []⟩

/-- The literal `Bearer ` scheme marker. -/
def bearerMarker : Str := 'B' :: 'e' :: 'a' :: 'r' :: 'e' :: 'r' :: ' ' :: []

/-- The `auth` middleware, parameterised over the token verifier it delegates
to (`jwt.verify` in the source, which throws on failure — embedded as
`Except`). `header` is `req.headers.authorization` (absent ⇒ `none`), `secret`
is `process.env.JWT_SECRET || ''`. Mirrors the source: extract the token after
the `Bearer ` scheme (else the empty string); empty token ⇒ 401; empty secret
⇒ 500; verifier failure ⇒ 401; success ⇒ attach `{id}` and call `next()`. -/
def bearerToken (header : Option Str) : Str :=
  let h := header.getD []
  if startsWithStr bearerMarker h then h.drop bearerMarker.length else []

def authGate (verify : Str → Str → Except Unit SignedToken)
    (header : Option Str) (secret : Str) : AuthOutcome :=
  let token := bearerToken header
  if token.isEmpty then .respond unauthorizedRes
  else if secret.isEmpty then .respond serverConfigErrorRes
  else
    match verify token secret with
    | .ok payload => .proceed payload.id
    | .error _ => .respond unauthorizedRes

/-- `POST /auth/login` (after external validation): look up by email (the
filter cast lowercases through the schema setter), fail 401 uniformly when no
user matches or the bcrypt comparison fails, else sign a token with
`process.env.JWT_SECRET || ''` and return it with the public user data. -/
def login (store : List User) (jwtSecret : Option Str) (email password : Str)
    (now : Nat) : Except ErrRes (SignedToken × UserView) :=
  match store.find? (fun u => u.email == lowerStr email) with
  | none => .error invalidCredentials
  | some u =>
    if comparePassword u password then
      .ok (jwtSign u.id (jwtSecret.getD []) now, userView u)
    else .error invalidCredentials

/-- The truthiness test `if (req.body.x)` on an optional string field:
an absent field and an empty string are both falsy. -/
def truthy (o : Option Str) : Option Str :=
  o.bind fun s => if s.isEmpty then none else some s

/-- The 404 body of the profile routes (`User not found`). -/
def userNotFoundRes : ErrRes :=
  ⟨404, 'U' :: 's' :: 'e' :: 'r' :: ' ' :: 'n' :: 'o' :: 't' :: ' ' ::
        'f' :: 'o' :: 'u' :: 'n' :: 'd' :: []⟩

/-- `PUT /auth/profile`: collect the truthy subset of `{username, email}` and
apply it via `findByIdAndUpdate` (schema setters run on the update: trim on
username, lowercase on email; no save hook runs, so the password field is
untouched). Returns the updated public projection, or 404 when the id no
longer resolves. -/
def updateProfile (store : List User) (uid : Str)
    (uname? email? : Option Str) : Except ErrRes UserView × List User :=
  match store with
  | [] => (.error userNotFoundRes, [])
  | u :: rest =>
    if u.id == uid then
      let u' : User :=
        { u with
          username := ((truthy uname?).map trimStr).getD u.username
          email := ((truthy email?).map lowerStr).getD u.email }
      (.ok (userView u'), u' :: rest)
    else
      let (r, rest') := updateProfile rest uid uname? email?
      (r, u :: rest')

/-- The process environment variables the sources read. -/
structure Env where
  mongoUri : Option Str
  mongoDbName : Option Str
  jwtSecret : Option Str
  port : Option Nat
deriving Repr

/-- `connect()` from the db module: reads `MONGODB_URI || ''` and throws
`MONGODB_URI missing` when it is empty; otherwise connects. -/
def connect (env : Env) : Except Str Unit :=
  let uri := env.mongoUri.getD []
  if uri.isEmpty then
    .error ('M' :: 'O' :: 'N' :: 'G' :: 'O' :: 'D' :: 'B' :: '_' :: 'U' :: 'R' :: 'I' ::
            ' ' :: 'm' :: 'i' :: 's' :: 's' :: 'i' :: 'n' :: 'g' :: [])
  else .ok ()

/-- The startup sequence of the entry module: `connect().then(() =>
app.listen(port))`. Its only failure condition is the one `connect` raises;
no other environment variable is validated at startup. -/
def startup (env : Env) : Except Str Unit :=
  connect env

/-- TaskDoc status enumeration (`['todo', 'in-progress', 'completed']`). -/
inductive Status where
  | todo
  | inProgress
  | completed
deriving DecidableEq, Repr

/-- TaskDoc priority enumeration (`['low', 'medium', 'high']`). -/
inductive Priority where
  | low
  | medium
  | high
deriving DecidableEq, Repr

/-- A persisted TaskDoc document (mongoose `Task` model, `timestamps: true`). -/
structure TaskDoc where
  id : Str
  title : Str
  description : Str
  status : Status
  priority : Priority
  userId : Str
  createdAt : Nat
  updatedAt : Nat
deriving DecidableEq, Repr

/-- The response projection used by the list/create/update task routes:
`{id, title, description, status, priority, createdAt, updatedAt}` —
and nothing else; in particular no `userId`. -/
structure TaskView where
  id : Str
  title : Str
  description : Str
  status : Status
  priority : Priority
  createdAt : Nat
  updatedAt : Nat
deriving DecidableEq, Repr

def taskView (t : TaskDoc) : TaskView :=
  ⟨t.id, t.title, t.description, t.status, t.priority, t.createdAt, t.updatedAt⟩

/-- The validated query parameters of `GET /tasks` (`q`, `status`,
`priority`; the Input Validator guarantees the enumerations, and the
truthiness tests in the handler make an absent and an empty value alike). -/
structure TaskQuery where
  q : Option Str
  status : Option Status
  priority : Option Priority
deriving Repr

/-- The match predicate accumulated by the `GET /tasks` handler: the base
filter `{userId}` plus `status`/`priority` exact matches when supplied, plus
the chained title condition `{title: {$regex: q, $options: 'i'}}`. -/
def taskMatches (owner : Str) (f : TaskQuery) (t : TaskDoc) : Bool :=
  t.userId == owner
    && (match f.status with | some s => t.status == s | none => true)
    && (match f.priority with | some p => t.priority == p | none => true)
    && (match f.q with | some q => containsI t.title q | none => true)

/-- `createdAt` descending, the sort of `GET /tasks` (`sort({createdAt: -1})`). -/
def newerFirst (a b : TaskDoc) : Bool := b.createdAt ≤ a.createdAt

/-- `GET /tasks` query execution against the store: all conditions of the
accumulated filter, ordered by creation time, most recent first. -/
def listTasks (store : List TaskDoc) (owner : Str) (f : TaskQuery) : List TaskDoc :=
  (store.filter (taskMatches owner f)).mergeSort newerFirst

/-- `GET /tasks` response: the matching tasks mapped through the projection. -/
def listRoute (store : List TaskDoc) (owner : Str) (f : TaskQuery) : List TaskView :=
  (listTasks store owner f).map taskView

/-- The validated body of `POST /tasks`. -/
structure TaskCreateBody where
  title : Str
  description : Option Str
  status : Option Status
  priority : Option Priority
deriving Repr

/-- `POST /tasks`: `TaskDoc.create` with the schema defaults (`description ''`,
`status todo`, `priority medium`), title trimmed by the schema setter, owner
bound from the authenticated principal, timestamps set by mongoose. -/
def createTask (store : List TaskDoc) (owner : Str) (b : TaskCreateBody)
    (newId : Str) (now : Nat) : TaskDoc × List TaskDoc :=
  let t : TaskDoc :=
    { id := newId, title := trimStr b.title, description := b.description.getD [],
      status := b.status.getD .todo, priority := b.priority.getD .medium,
      userId := owner, createdAt := now, updatedAt := now }
  (t, store ++ [t])

/-- `POST /tasks` response body (201): the created task's projection. -/
def createRoute (store : List TaskDoc) (owner : Str) (b : TaskCreateBody)
    (newId : Str) (now : Nat) : TaskView × List TaskDoc :=
  let (t, store') := createTask store owner b newId now
  (taskView t, store')

/-- The validated body of `PUT /tasks/:id`: any subset of the four fields
(the handler tests `!== undefined`, so an absent field is `none`). -/
structure TaskUpdateBody where
  title : Option Str
  description : Option Str
  status : Option Status
  priority : Option Priority
deriving Repr

/-- The body with no fields present. -/
def emptyUpdate : TaskUpdateBody := ⟨none, none, none, none⟩

/-- The effect of `findOneAndUpdate` on the matched document: each supplied
field is set (through the schema setters: trim on title), and mongoose's
`timestamps: true` sets `updatedAt` on every update call. -/
def applyTaskUpdate (t : TaskDoc) (b : TaskUpdateBody) (now : Nat) : TaskDoc :=
  { t with
    title := (b.title.map trimStr).getD t.title
    description := b.description.getD t.description
    status := b.status.getD t.status
    priority := b.priority.getD t.priority
    updatedAt := now }

/-- The 404 body of the task routes (`TaskDoc not found`). -/
def taskNotFoundRes : ErrRes :=
  ⟨404, 'T' :: 'a' :: 's' :: 'k' :: ' ' :: 'n' :: 'o' :: 't' :: ' ' ::
        'f' :: 'o' :: 'u' :: 'n' :: 'd' :: []⟩

/-- `PUT /tasks/:id`: `Task.findOneAndUpdate({_id: id, userId}, updates,
{new: true})` — the first document matching both the task id and the owning
user is updated and returned; no match yields 404 and no change. -/
def updateTask (store : List TaskDoc) (owner tid : Str) (b : TaskUpdateBody)
    (now : Nat) : Except ErrRes TaskDoc × List TaskDoc :=
  match store with
  | [] => (.error taskNotFoundRes, [])
  | t :: rest =>
    if t.id == tid && t.userId == owner then
      (.ok (applyTaskUpdate t b now), applyTaskUpdate t b now :: rest)
    else
      let (r, rest') := updateTask rest owner tid b now
      (r, t :: rest')

/-- `PUT /tasks/:id` response body (200): the updated task's projection. -/
def updateRoute (store : List TaskDoc) (owner tid : Str) (b : TaskUpdateBody)
    (now : Nat) : Except ErrRes TaskView × List TaskDoc :=
  let (r, store') := updateTask store owner tid b now
  (r.map taskView, store')

/-- `DELETE /tasks/:id`: `TaskDoc.findOneAndDelete({_id: id, userId})` — the
first document matching both predicates is removed; no match yields 404. -/
def deleteTask (store : List TaskDoc) (owner tid : Str) :
    Except ErrRes Unit × List TaskDoc :=
  match store with
  | [] => (.error taskNotFoundRes, [])
  | t :: rest =>
    if t.id == tid && t.userId == owner then (.ok (), rest)
    else
      let (r, rest') := deleteTask rest owner tid
      (r, t :: rest')


/-- A process environment with the store connection string set and
`JWT_SECRET` absent. -/
def envNoSecret : Env :=
  { mongoUri := some ('m' :: []), mongoDbName := none, jwtSecret := none, port := none }

/-- A concrete task owned by user `a`. -/
def taskA : TaskDoc :=
  { id := 't' :: [], title := 'R' :: [], description := [], status := .todo,
    priority := .medium, userId := 'a' :: [], createdAt := 0, updatedAt := 0 }

theorem register_hashes (store : List User) (uname email password newId salt : Str) (now : Nat)
    (h : store.any (fun u => u.email == lowerStr email || u.username == uname) = false) :
    (register store uname email password newId salt now).2 = store ++
      [{ id := newId, username := trimStr uname, email := lowerStr email,
         password := bcryptHash salt password, createdAt := now }] := by
  simp [register, h, preSave]

/-- C3: the Auth Gate, for every incoming request: no `Bearer <token>` in the
authorization header ⇒ 401 without invoking the verifier (the outcome does not
depend on it); token present but the signing secret unset ⇒ 500 server-config
error, not 401; verification failure ⇒ 401; and only on successful
verification does it attach the token's user id and continue. -/
theorem authGate_c3 (v v' : Str → Str → Except Unit SignedToken)
    (header : Option Str) (secret : Str) :
    ((bearerToken header).isEmpty = true →
      authGate v header secret = .respond unauthorizedRes ∧
      authGate v header secret = authGate v' header secret) ∧
    ((bearerToken header).isEmpty = false → secret.isEmpty = true →
      authGate v header secret = .respond serverConfigErrorRes) ∧
    ((bearerToken header).isEmpty = false → secret.isEmpty = false →
      v (bearerToken header) secret = .error () →
      authGate v header secret = .respond unauthorizedRes) ∧
    (∀ payload, (bearerToken header).isEmpty = false → secret.isEmpty = false →
      v (bearerToken header) secret = .ok payload →
      authGate v header secret = .proceed payload.id) := by
  refine ⟨fun h => ⟨?_, ?_⟩, fun h hs => ?_, fun h hs hv => ?_, fun p h hs hv => ?_⟩
  · simp [authGate, h]
  · simp [authGate, h]
  · simp [authGate, h, hs]
  · simp [authGate, h, hs, hv]
  · simp [authGate, h, hs, hv]

/-- Closed instances of `authGate_c3`: a header without a bearer token gets
401 whatever the verifier does; a bearer token with an unset secret gets 500;
a failing verifier gets 401; a succeeding verifier proceeds with the id. -/
theorem authGate_c3_witness :
    (authGate (fun _ _ => .ok ⟨'a' :: [], 0, 1, 's' :: []⟩) none ('s' :: [])
        = .respond unauthorizedRes ∧
      authGate (fun _ _ => .ok ⟨'a' :: [], 0, 1, 's' :: []⟩) none ('s' :: [])
        = authGate (fun _ _ => .error ()) none ('s' :: [])) ∧
    authGate (fun _ _ => .ok ⟨'a' :: [], 0, 1, 's' :: []⟩)
      (some (bearerMarker ++ ('x' :: []))) [] = .respond serverConfigErrorRes ∧
    authGate (fun _ _ => .error ()) (some (bearerMarker ++ ('x' :: []))) ('s' :: [])
      = .respond unauthorizedRes ∧
    authGate (fun _ _ => .ok ⟨'a' :: [], 0, 1, 's' :: []⟩)
      (some (bearerMarker ++ ('x' :: []))) ('s' :: [])
      = .proceed ('a' :: []) :=
  ⟨(authGate_c3 _ (fun _ _ => .error ()) none ('s' :: [])).1 (by decide),
   (authGate_c3 (fun _ _ => .ok ⟨'a' :: [], 0, 1, 's' :: []⟩) (fun _ _ => .error ())
      (some (bearerMarker ++ ('x' :: []))) []).2.1 (by decide) (by decide),
   (authGate_c3 (fun _ _ => .error ()) (fun _ _ => .error ())
      (some (bearerMarker ++ ('x' :: []))) ('s' :: [])).2.2.1 (by decide) (by decide) rfl,
   (authGate_c3 (fun _ _ => .ok ⟨'a' :: [], 0, 1, 's' :: []⟩) (fun _ _ => .error ())
      (some (bearerMarker ++ ('x' :: []))) ('s' :: [])).2.2.2 _ (by decide) (by decide) rfl⟩

/-- C4: a token issued for user id `u` at time `t` verifies (with the issuing
secret) to exactly `u` while the clock is within the 24-hour window, and
verification fails once the clock is past the window. -/
theorem token_roundtrip (u secret : Str) (t now : Nat) :
    (now < t + tokenValiditySecs →
      (jwtVerify (jwtSign u secret t) secret now).toOption.map SignedToken.id = some u) ∧
    (t + tokenValiditySecs < now →
      jwtVerify (jwtSign u secret t) secret now = .error ()) := by
  refine ⟨fun h => ?_, fun h => ?_⟩
  · simp [jwtVerify, jwtSign, h, Except.toOption]
  · have hn : ¬ now < t + tokenValiditySecs := by omega
    simp [jwtVerify, jwtSign, hn]

/-- Closed instance of `token_roundtrip`: a token issued at time 0 for id `a`
verifies to `a` one hour later and is rejected 25 hours later. -/
theorem token_roundtrip_witness :
    (jwtVerify (jwtSign ('a' :: []) ('s' :: []) 0) ('s' :: []) 3600).toOption.map
        SignedToken.id = some ('a' :: []) ∧
    jwtVerify (jwtSign ('a' :: []) ('s' :: []) 0) ('s' :: []) (25 * 3600) = .error () :=
  ⟨(token_roundtrip ('a' :: []) ('s' :: []) 0 3600).1 (by decide),
   (token_roundtrip ('a' :: []) ('s' :: []) 0 (25 * 3600)).2 (by decide)⟩

theorem updateProfile_preserves_passwords (store : List User) (uid : Str)
    (uname? email? : Option Str) :
    ((updateProfile store uid uname? email?).2).map User.password =
      store.map User.password := by
  induction store with
  | nil => rfl
  | cons u rest ih =>
    by_cases h : (u.id == uid) = true
    · simp [updateProfile, h]
    · simp only [updateProfile, Bool.not_eq_true] at h
      simp [updateProfile, h, ih]

/-- C2: a successful registration with plaintext `p` persists a salted hash
that is never `p` itself, against which `comparePassword p` succeeds; and the
stored password is re-hashed only when the password path is modified — the
pre-save hook leaves an unmodified document alone, and profile updates
(username/email) never touch any stored password. -/
theorem register_password_hashed (store : List User)
    (uname email p newId salt : Str) (now : Nat)
    (hsalt : salt.length = bcryptSaltLen)
    (hfree : store.any (fun u => u.email == lowerStr email || u.username == uname) = false) :
    (∃ u, (register store uname email p newId salt now) = (.ok (userView u), store ++ [u]) ∧
      u.password = bcryptHash salt p ∧
      u.password ≠ p ∧
      comparePassword u p = true) ∧
    (∀ (w : User) (s : Str), preSave w false s = w) ∧
    (∀ (st : List User) (uid : Str) (un em : Option Str),
      ((updateProfile st uid un em).2).map User.password = st.map User.password) := by
  refine ⟨?_, fun w s => by simp [preSave], fun st uid un em =>
    updateProfile_preserves_passwords st uid un em⟩
  refine ⟨{ id := newId, username := trimStr uname, email := lowerStr email,
            password := bcryptHash salt p, createdAt := now }, ?_, rfl, ?_, ?_⟩
  · simp [register, hfree, preSave]
  · intro hEq
    have hlen := congrArg List.length hEq
    simp [bcryptHash, bcryptPrefixStr] at hlen
    omega
  · simp only [comparePassword, bcryptCompare, bcryptHash]
    have h1 : List.drop bcryptPrefixStr.length (bcryptPrefixStr ++ salt ++ p) = salt ++ p := by
      rw [List.append_assoc]
      exact List.drop_left _ _
    rw [h1, List.take_left' hsalt]
    exact beq_self_eq_true _

/-- Closed instance of `register_password_hashed`: registering `bob` /
`bob@x.com` / `secret1` into an empty store persists a hash that is not the
plaintext and that `comparePassword` accepts the plaintext against. -/
theorem register_password_hashed_witness :
    ∃ u, register [] ('b' :: 'o' :: 'b' :: []) ('b' :: 'o' :: 'b' :: '@' :: 'x' :: [])
        ('s' :: 'e' :: 'c' :: 'r' :: 'e' :: 't' :: '1' :: []) ('u' :: '1' :: []) salt22 5
        = (.ok (userView u), [] ++ [u]) ∧
      u.password = bcryptHash salt22 ('s' :: 'e' :: 'c' :: 'r' :: 'e' :: 't' :: '1' :: []) ∧
      u.password ≠ ('s' :: 'e' :: 'c' :: 'r' :: 'e' :: 't' :: '1' :: []) ∧
      comparePassword u ('s' :: 'e' :: 'c' :: 'r' :: 'e' :: 't' :: '1' :: []) = true :=
  (register_password_hashed [] ('b' :: 'o' :: 'b' :: [])
    ('b' :: 'o' :: 'b' :: '@' :: 'x' :: [])
    ('s' :: 'e' :: 'c' :: 'r' :: 'e' :: 't' :: '1' :: []) ('u' :: '1' :: []) salt22 5
    (by decide) (by decide)).1

/-- C7: the login failure is one uniform value — 401 `Invalid credentials` —
whether no user record matches the email or the record exists and the hash
comparison fails, so the caller cannot distinguish the two causes. -/
theorem login_uniform_failure (store : List User) (jwtSecret : Option Str)
    (email p : Str) (now : Nat)
    (h : store.find? (fun u => u.email == lowerStr email) = none ∨
      ∃ u, store.find? (fun u => u.email == lowerStr email) = some u ∧
        comparePassword u p = false) :
    login store jwtSecret email p now = .error invalidCredentials := by
  rcases h with h | ⟨u, hu, hcmp⟩
  · simp [login, h]
  · simp [login, hu, hcmp]

/-- Closed instances of `login_uniform_failure`: the same error value results
from an unknown email (empty store) and from a wrong password (stored user
whose hash does not match). -/
theorem login_uniform_failure_witness :
    login [] none ('c' :: '@' :: 'x' :: []) ('p' :: 'w' :: []) 0
        = .error invalidCredentials ∧
    login [badPwUser] none ('c' :: '@' :: 'x' :: []) ('p' :: 'w' :: []) 0
        = .error invalidCredentials :=
  ⟨login_uniform_failure [] none ('c' :: '@' :: 'x' :: []) ('p' :: 'w' :: []) 0
      (.inl (by decide)),
   login_uniform_failure [badPwUser] none ('c' :: '@' :: 'x' :: []) ('p' :: 'w' :: []) 0
      (.inr ⟨badPwUser, by decide, by decide⟩)⟩

/-- C8: registration fails with 409 Conflict whenever the single existence
query finds a record with the same username or the same email, and a second
registration with the same email after a successful first one fails with
Conflict and leaves the store unchanged (exactly one success). -/
theorem register_conflict (store store' : List User)
    (uname email p newId salt : Str) (now : Nat)
    (uname₂ p₂ newId₂ salt₂ : Str) (now₂ : Nat) (v : UserView) :
    ((∃ u ∈ store, u.email = lowerStr email ∨ u.username = uname) →
      register store uname email p newId salt now = (.error userExistsConflict, store)) ∧
    (register store uname email p newId salt now = (.ok v, store') →
      register store' uname₂ email p₂ newId₂ salt₂ now₂
        = (.error userExistsConflict, store')) := by
  constructor
  · rintro ⟨u, hu, hcase⟩
    have hany : store.any (fun u => u.email == lowerStr email || u.username == uname) = true := by
      refine List.any_eq_true.2 ⟨u, hu, ?_⟩
      rcases hcase with h | h <;> simp [h]
    simp [register, hany]
  · intro hfirst
    by_cases hany : store.any (fun u => u.email == lowerStr email || u.username == uname) = true
    · simp [register, hany] at hfirst
    · have hany' : store.any (fun u => u.email == lowerStr email || u.username == uname) = false :=
        by simpa using hany
      have hstore' : store' = store ++
          [{ id := newId, username := trimStr uname, email := lowerStr email,
             password := bcryptHash salt p, createdAt := now }] := by
        have h2 := congrArg Prod.snd hfirst
        simpa [register_hashes store uname email p newId salt now hany'] using h2.symm
      have hany₂ : store'.any
          (fun u => u.email == lowerStr email || u.username == uname₂) = true := by
        refine List.any_eq_true.2
          ⟨{ id := newId, username := trimStr uname, email := lowerStr email,
             password := bcryptHash salt p, createdAt := now }, ?_, ?_⟩
        · rw [hstore']
          exact List.mem_append_right _ (List.mem_singleton_self _)
        · simp
      simp [register, hany₂]

/-- Closed instances of `register_conflict`: with `firstReg` stored, another
registration under the same username conflicts; and registering the same
email a second time (different username and password) conflicts and leaves
the one-element store unchanged. -/
theorem register_conflict_witness :
    register [firstReg] ('a' :: []) ('z' :: '@' :: 'x' :: []) ('q' :: 'q' :: [])
        ('u' :: '2' :: []) salt22 1 = (.error userExistsConflict, [firstReg]) ∧
    register [firstReg] ('b' :: []) ('a' :: '@' :: 'x' :: []) ('q' :: 'q' :: [])
        ('u' :: '2' :: []) salt22 1 = (.error userExistsConflict, [firstReg]) :=
  ⟨(register_conflict [firstReg] [] ('a' :: []) ('z' :: '@' :: 'x' :: []) ('q' :: 'q' :: [])
      ('u' :: '2' :: []) salt22 1 ('b' :: []) ('q' :: 'q' :: []) ('u' :: '3' :: []) salt22 2
      (userView firstReg)).1
      ⟨firstReg, List.mem_singleton_self _, Or.inr rfl⟩,
   (register_conflict [] [firstReg] ('a' :: []) ('a' :: '@' :: 'x' :: []) ('p' :: 'w' :: [])
      ('u' :: []) salt22 0 ('b' :: []) ('q' :: 'q' :: []) ('u' :: '2' :: []) salt22 1
      (userView firstReg)).2 rfl⟩

/-- Counterexample to C6: with `MONGODB_URI` set but `JWT_SECRET` absent, the
startup sequence succeeds (it validates only the connection string), and the
login operation still signs — producing a token whose signature was computed
with the empty-string secret. -/
theorem startup_missing_secret_counterexample :
    startup envNoSecret = .ok () ∧
    login [firstReg] none ('a' :: '@' :: 'x' :: []) ('p' :: 'w' :: []) 7
      = .ok (jwtSign ('u' :: []) [] 7, userView firstReg) ∧
    (jwtSign ('u' :: []) [] 7).sig = [] :=
  ⟨rfl, rfl, rfl⟩

/-- C6 as amended: absence of the signing secret is not checked at startup —
startup succeeds whenever the store connection string is non-empty, whatever
`JWT_SECRET` holds — and the missing secret surfaces per request instead: the
Auth Gate answers 500 `Server config error` to any request carrying a bearer
token, and login signs tokens with the empty-string secret. -/
theorem startup_secret_amended (env : Env)
    (v : Str → Str → Except Unit SignedToken) (header : Option Str)
    (store : List User) (email p : Str) (now : Nat)
    (tok : SignedToken) (uv : UserView) :
    ((env.mongoUri.getD []).isEmpty = false → startup env = .ok ()) ∧
    ((bearerToken header).isEmpty = false →
      authGate v header [] = .respond serverConfigErrorRes) ∧
    (login store none email p now = .ok (tok, uv) → tok.sig = []) := by
  refine ⟨fun h => ?_, fun h => ?_, fun h => ?_⟩
  · simp [startup, connect, h]
  · simp [authGate, h]
  · rcases hfind : store.find? (fun u => u.email == lowerStr email) with _ | u
    · simp [login, hfind] at h
    · by_cases hcmp : comparePassword u p = true
      · simp [login, hfind, hcmp] at h
        rw [← h.1]
        rfl
      · simp only [Bool.not_eq_true] at hcmp
        simp [login, hfind, hcmp] at h

/-- Closed instances of `startup_secret_amended` at a concrete environment
(`MONGODB_URI` set, `JWT_SECRET` unset), a concrete bearer request, and a
concrete successful login. -/
theorem startup_secret_amended_witness :
    startup envNoSecret = .ok () ∧
    authGate (fun _ _ => .error ()) (some (bearerMarker ++ ('x' :: []))) []
      = .respond serverConfigErrorRes ∧
    (jwtSign ('u' :: []) [] 7).sig = [] :=
  ⟨(startup_secret_amended envNoSecret (fun _ _ => .error ()) none [] [] [] 0
      (jwtSign [] [] 0) (userView firstReg)).1 (by decide),
   (startup_secret_amended envNoSecret (fun _ _ => .error ())
      (some (bearerMarker ++ ('x' :: []))) [] [] [] 0
      (jwtSign [] [] 0) (userView firstReg)).2.1 (by decide),
   (startup_secret_amended envNoSecret (fun _ _ => .error ()) none [firstReg]
      ('a' :: '@' :: 'x' :: []) ('p' :: 'w' :: []) 7
      (jwtSign ('u' :: []) [] 7) (userView firstReg)).2.2 rfl⟩

theorem updateTask_no_match (store : List TaskDoc) (owner tid : Str)
    (b : TaskUpdateBody) (now : Nat)
    (h : ∀ x ∈ store, (x.id == tid && x.userId == owner) = false) :
    updateTask store owner tid b now = (.error taskNotFoundRes, store) := by
  induction store with
  | nil => rfl
  | cons t rest ih =>
    have ht := h t (List.mem_cons_self t rest)
    have hrest := ih fun x hx => h x (List.mem_cons_of_mem t hx)
    simp [updateTask, ht, hrest]

theorem deleteTask_no_match (store : List TaskDoc) (owner tid : Str)
    (h : ∀ x ∈ store, (x.id == tid && x.userId == owner) = false) :
    deleteTask store owner tid = (.error taskNotFoundRes, store) := by
  induction store with
  | nil => rfl
  | cons t rest ih =>
    have ht := h t (List.mem_cons_self t rest)
    have hrest := ih fun x hx => h x (List.mem_cons_of_mem t hx)
    simp [deleteTask, ht, hrest]

/-- C1: a task owned by user A is invisible and immutable to any other
authenticated principal B: the list operation invoked by B never returns it,
update and delete invoked by B with its id fail with 404 `Task not found`
and leave the store unchanged, and the failing responses are the very values
produced on a store that does not contain the task at all. -/
theorem owner_isolation (store : List TaskDoc) (A B : Str) (t : TaskDoc)
    (f : TaskQuery) (b : TaskUpdateBody) (now : Nat)
    (hmem : t ∈ store) (howner : t.userId = A) (hAB : A ≠ B)
    (hids : (store.map TaskDoc.id).Nodup) :
    t ∉ listTasks store B f ∧
    updateTask store B t.id b now = (.error taskNotFoundRes, store) ∧
    deleteTask store B t.id = (.error taskNotFoundRes, store) ∧
    (updateTask store B t.id b now).1 = (updateTask [] B t.id b now).1 ∧
    (deleteTask store B t.id).1 = (deleteTask [] B t.id).1 := by
  have hnomatch : ∀ x ∈ store, (x.id == t.id && x.userId == B) = false := by
    intro x hx
    by_cases hxid : x.id = t.id
    · have hxt : x = t := List.inj_on_of_nodup_map hids hx hmem hxid
      subst hxt
      have : (x.userId == B) = false := by
        simp [howner]
        exact hAB
      simp [this]
    · simp [hxid]
  have hupd := updateTask_no_match store B t.id b now hnomatch
  have hdel := deleteTask_no_match store B t.id hnomatch
  refine ⟨?_, hupd, hdel, ?_, ?_⟩
  · intro hin
    have hin' : t ∈ store.filter (taskMatches B f) := List.mem_mergeSort.mp hin
    have := (List.mem_filter.mp hin').2
    simp [taskMatches, howner] at this
    exact hAB this.1.1.1
  · rw [hupd]
    rfl
  · rw [hdel]
    rfl

/-- Closed instance of `owner_isolation`: with user `a`'s task stored, user
`b` cannot list it, and update/delete by `b` with its id return 404 and leave
the store as it was. -/
theorem owner_isolation_witness :
    taskA ∉ listTasks [taskA] ('b' :: []) ⟨none, none, none⟩ ∧
    updateTask [taskA] ('b' :: []) taskA.id emptyUpdate 1
      = (.error taskNotFoundRes, [taskA]) ∧
    deleteTask [taskA] ('b' :: []) taskA.id = (.error taskNotFoundRes, [taskA]) ∧
    (updateTask [taskA] ('b' :: []) taskA.id emptyUpdate 1).1
      = (updateTask [] ('b' :: []) taskA.id emptyUpdate 1).1 ∧
    (deleteTask [taskA] ('b' :: []) taskA.id).1
      = (deleteTask [] ('b' :: []) taskA.id).1 :=
  owner_isolation [taskA] ('a' :: []) ('b' :: []) taskA ⟨none, none, none⟩
    emptyUpdate 1 (List.mem_singleton_self _) rfl (by decide) (by decide)

/-- C5: for every owner, query string and store, the list operation run with
only the free-text filter returns exactly the owner's tasks whose title
contains the query case-insensitively — and the match predicate is oblivious
to the description field under every filter. -/
theorem list_title_search (store : List TaskDoc) (owner q : Str) (t : TaskDoc) :
    (t ∈ listTasks store owner ⟨some q, none, none⟩ ↔
      t ∈ store ∧ t.userId = owner ∧ containsI t.title q = true) ∧
    (∀ (f : TaskQuery) (d : Str),
      taskMatches owner f { t with description := d } = taskMatches owner f t) := by
  constructor
  · rw [listTasks, List.mem_mergeSort, List.mem_filter]
    simp [taskMatches, and_assoc]
  · intro f d
    rfl

theorem updateTask_found (pre post : List TaskDoc) (owner tid : Str)
    (b : TaskUpdateBody) (now : Nat) (t : TaskDoc)
    (hpre : ∀ x ∈ pre, (x.id == tid && x.userId == owner) = false)
    (ht : (t.id == tid && t.userId == owner) = true) :
    updateTask (pre ++ t :: post) owner tid b now =
      (.ok (applyTaskUpdate t b now), pre ++ applyTaskUpdate t b now :: post) := by
  induction pre with
  | nil => simp [updateTask, ht]
  | cons x xs ih =>
    have hx := hpre x (List.mem_cons_self x xs)
    have ih' := ih fun y hy => hpre y (List.mem_cons_of_mem x hy)
    simp [updateTask, hx, ih']

/-- C9: when the owner updates an existing task, the new stored document is
`applyTaskUpdate` of the old one in place: with the empty field set every
field is kept and only `updatedAt` moves to the clock; in general only the
fields present in the request change, `id`, `userId` and `createdAt` are
always preserved, and `updatedAt` is always set. -/
theorem update_empty_frame (store : List TaskDoc) (owner : Str) (t : TaskDoc)
    (now : Nat) (hmem : t ∈ store) (howner : t.userId = owner)
    (hids : (store.map TaskDoc.id).Nodup) :
    (∃ pre post, store = pre ++ t :: post ∧
      ∀ (b : TaskUpdateBody) (m : Nat), updateTask store owner t.id b m =
        (.ok (applyTaskUpdate t b m), pre ++ applyTaskUpdate t b m :: post)) ∧
    applyTaskUpdate t emptyUpdate now = { t with updatedAt := now } ∧
    (∀ (b : TaskUpdateBody) (m : Nat),
      (b.title = none → (applyTaskUpdate t b m).title = t.title) ∧
      (b.description = none → (applyTaskUpdate t b m).description = t.description) ∧
      (b.status = none → (applyTaskUpdate t b m).status = t.status) ∧
      (b.priority = none → (applyTaskUpdate t b m).priority = t.priority) ∧
      (applyTaskUpdate t b m).userId = t.userId ∧
      (applyTaskUpdate t b m).createdAt = t.createdAt ∧
      (applyTaskUpdate t b m).id = t.id ∧
      (applyTaskUpdate t b m).updatedAt = m) := by
  refine ⟨?_, by simp [applyTaskUpdate, emptyUpdate], ?_⟩
  · obtain ⟨pre, post, hsplit⟩ := List.append_of_mem hmem
    refine ⟨pre, post, hsplit, fun b m => ?_⟩
    have hnotin : t.id ∉ pre.map TaskDoc.id := by
      rw [hsplit] at hids
      simp [List.nodup_append] at hids
      intro hin
      rcases List.mem_map.mp hin with ⟨x, hx, hxid⟩
      exact hids.2.2.1 x hx hxid
    have hpre : ∀ x ∈ pre, (x.id == t.id && x.userId == owner) = false := by
      intro x hx
      have : x.id ≠ t.id := fun hEq => hnotin (List.mem_map.mpr ⟨x, hx, hEq⟩)
      simp [this]
    have ht : (t.id == t.id && t.userId == owner) = true := by simp [howner]
    rw [hsplit]
    exact updateTask_found pre post owner t.id b m t hpre ht
  · intro b m
    refine ⟨fun h => ?_, fun h => ?_, fun h => ?_, fun h => ?_, rfl, rfl, rfl, rfl⟩ <;>
      simp [applyTaskUpdate, h]

/-- Closed instance of `update_empty_frame`: updating `a`'s stored task with
an empty field set at time 9 succeeds and only moves `updatedAt`. -/
theorem update_empty_frame_witness :
    ∃ pre post, [taskA] = pre ++ taskA :: post ∧
      ∀ (b : TaskUpdateBody) (m : Nat), updateTask [taskA] ('a' :: []) taskA.id b m =
        (.ok (applyTaskUpdate taskA b m), pre ++ applyTaskUpdate taskA b m :: post) :=
  (update_empty_frame [taskA] ('a' :: []) taskA 9
    (List.mem_singleton_self _) rfl (by decide)).1

/-- C10: every task object the list, create and update endpoints return is
the fixed projection `taskView` of a stored task; that projection consists of
exactly the seven fields id, title, description, status, priority, createdAt,
updatedAt, and is independent of the stored owner identifier, which therefore
never appears in a response body. -/
theorem task_response_projection :
    (∀ (store : List TaskDoc) (owner : Str) (f : TaskQuery),
      listRoute store owner f = (listTasks store owner f).map taskView) ∧
    (∀ (store : List TaskDoc) (owner : Str) (b : TaskCreateBody) (nid : Str) (now : Nat),
      (createRoute store owner b nid now).1 = taskView (createTask store owner b nid now).1) ∧
    (∀ (store : List TaskDoc) (owner tid : Str) (b : TaskUpdateBody) (now : Nat),
      (updateRoute store owner tid b now).1 = (updateTask store owner tid b now).1.map taskView) ∧
    (∀ t : TaskDoc, taskView t =
      ⟨t.id, t.title, t.description, t.status, t.priority, t.createdAt, t.updatedAt⟩) ∧
    (∀ (t : TaskDoc) (uid : Str), taskView { t with userId := uid } = taskView t) := by
  refine ⟨fun store owner f => rfl, fun store owner b nid now => rfl,
    fun store owner tid b now => ?_, fun t => rfl, fun t uid => rfl⟩
  rcases h : updateTask store owner tid b now with ⟨r, s⟩
  simp [updateRoute, h]
